import Mathlib

/-!
# Verification of the batch-update resolver pipeline

A shallow embedding of
`packages/twenty-server/src/engine/api/graphql/graphql-query-runner/resolvers/graphql-query-update-many-resolver.service.ts`
(`GraphqlQueryUpdateManyResolverService`), the batch-update operation of the
generic record-store query runner.

The resolver is modelled as a pure function that, besides its result, returns
the ordered trace of calls it makes to its collaborators (the filter
translator `applyFilterToBuilder`, the storage read `getMany`, the storage
update statement, the change-event emitter `emitUpdateEvents`, and the
nested-relation hydrator `processNestedRelations`).  The outcomes of the two
storage round trips and of hydration are supplied by an environment, so one
run of the model corresponds to one execution of the resolver against a fixed
storage behaviour.

Collaborator code of this repository that is not part of the shown sources
(`formatData`, `formatResult`, `computeTableName`, `assertIsValidUuid`,
`assertMutationNotOnRemoteObject`, `processRecord`, `QUERY_MAX_RECORDS`) is
modelled from the spec; each such definition carries a doc comment saying so.
-/

set_option autoImplicit false

namespace UpdateMany

/-- A record value; values are kept opaque (string-encoded). -/
abbrev Value := String

/-- A raw storage row: a mapping from storage column name to value. -/
abbrev RawRow := List (String × Value)

/-- A record in canonical (formatted) shape: field name to value. -/
abbrev ObjectRecord := List (String × Value)

/-- One field clause of a filter expression: the operators the embedding
tracks are set-membership (`in`, written `inValues` since `in` is a Lean
keyword) and equality (`eq`). -/
structure FieldClause where
  inValues : Option (List String)
  eqValue : Option String
deriving Repr, DecidableEq

/-- A caller-supplied filter expression: an object that may hold a top-level
`id` clause, `and` / `or` lists of sub-filters, and clauses on other fields. -/
inductive RecordFilter where
  | node (idClause : Option FieldClause)
      (andClauses : List RecordFilter)
      (orClauses : List RecordFilter)
      (fieldClauses : List (String × FieldClause))

/-- The top-level `id` clause of a filter (`filter.id` in the source). -/
def RecordFilter.idClause : RecordFilter → Option FieldClause
  | .node i _ _ _ => i

/-- The value list of the top-level `id.in` clause, `filter.id?.in?` in the
source: `none` when either optional access is absent. -/
def RecordFilter.idInValues (f : RecordFilter) : Option (List String) :=
  f.idClause.bind FieldClause.inValues

/-- The slice of `objectMetadataItemWithFieldMaps` the resolver consults:
the singular name, the custom-object flag, the remote-object flag, and the
field maps used by the formatting helpers. -/
structure ObjectMetadataItemWithFieldMaps where
  nameSingular : String
  isCustom : Bool
  isRemote : Bool
  fieldToColumn : List (String × String)
  columnToField : List (String × String)
deriving Repr, DecidableEq

/-- The `UpdateManyResolverArgs`: a filter (absent when the caller supplied
none) and the update payload `data`, a mapping from field name to new value. -/
structure UpdateManyArgs where
  filter : Option RecordFilter
  data : List (String × Value)

/-- The execution arguments handed to `resolve`: the caller args, the
authenticated context (opaque), the `relations` part of the selected-fields
result (opaque, present iff related entities were requested), the API-key
flag, and the role id. -/
structure ExecutionArgs where
  args : UpdateManyArgs
  authContext : String
  selectedRelations : Option String
  isExecutedByApiKey : Bool
  roleId : Option String

/-- Modelled from the spec: `QUERY_MAX_RECORDS`, the query maximum used as
the per-relation record cap (its concrete value is irrelevant to the claims;
only its identity as "the query maximum" matters). -/
def QUERY_MAX_RECORDS : Nat := 60

/-- Modelled from the spec: `computeTableName` computes the storage table
name of an object type from its singular name and the custom flag (custom
object types live in prefixed tables). -/
def computeTableName (nameSingular : String) (isCustom : Bool) : String :=
  if isCustom then "_" ++ nameSingular else nameSingular

/-- Modelled from the spec: `formatData` (formatInput) renames caller-facing
field names of the update payload into storage column names via the
descriptor field map; unknown fields are dropped rather than failing. -/
def formatData (payload : List (String × Value))
    (meta : ObjectMetadataItemWithFieldMaps) : List (String × Value) :=
  payload.filterMap fun p =>
    (meta.fieldToColumn.lookup p.1).map fun c => (c, p.2)

/-- Modelled from the spec: the per-row half of `formatResult` (formatOutput)
renames storage column names back into caller-facing field names; unknown
columns are dropped rather than failing. -/
def formatRow (meta : ObjectMetadataItemWithFieldMaps) (row : RawRow) :
    ObjectRecord :=
  row.filterMap fun p =>
    (meta.columnToField.lookup p.1).map fun f => (f, p.2)

/-- Modelled from the spec: `formatResult` maps `formatRow` over the list of
storage rows, preserving the row order returned by the storage layer. -/
def formatResult (rows : List RawRow)
    (meta : ObjectMetadataItemWithFieldMaps) : List ObjectRecord :=
  rows.map (formatRow meta)

/-- A single hex digit, as appears in a textual UUID. -/
def isHexDigit (c : Char) : Bool :=
  c.isDigit || (('a' ≤ c) && (c ≤ 'f')) || (('A' ≤ c) && (c ≤ 'F'))

/-- Splits a character list at its hyphens: the groups between hyphens, in
order (structurally recursive so that concrete runs reduce definitionally). -/
def splitGroups (cs : List Char) : List (List Char) :=
  match cs with
  | [] => [[]]
  | c :: rest =>
    let r := splitGroups rest
    if c = '-' then
      [] :: r
    else
      match r with
      | [] => [[c]]
      | g :: gs => (c :: g) :: gs

/-- Modelled from the spec: syntactic validity of an identifier (UUID):
five hyphen-separated groups of hex digits with lengths 8-4-4-4-12. -/
def isValidUuid (s : String) : Bool :=
  let groups := splitGroups s.toList
  (groups.map (·.length)) == [8, 4, 4, 4, 12] &&
    groups.all fun g => g.all isHexDigit

/-- The first identifier of a list that is not syntactically valid, if any:
`forEach`ing `assertIsValidUuid` over the list throws at exactly this one. -/
def findInvalidUuid (ids : List String) : Option String :=
  ids.find? fun i => !isValidUuid i

/-- The errors the `validate` phase can raise: `assertMutationNotOnRemoteObject`
(mutation not allowed on a read-only remote object), the missing-filter
`Error` with its message, and `assertIsValidUuid` carrying the offending
identifier. -/
inductive ValidationError where
  | mutationNotAllowed
  | missingFilter (message : String)
  | invalidIdentifier (id : String)
deriving Repr, DecidableEq

/-- The `validate` method of the resolver: asserts the target is not a remote
object, requires a filter ("Filter is required"), and checks every value of
the top-level `filter.id?.in?` clause with `assertIsValidUuid`.  No other
part of the filter is inspected. -/
def validate (args : UpdateManyArgs)
    (meta : ObjectMetadataItemWithFieldMaps) : Except ValidationError Unit :=
  if meta.isRemote then
    .error .mutationNotAllowed
  else
    match args.filter with
    | none => .error (.missingFilter "Filter is required")
    | some f =>
      match f.idInValues with
      | none => .ok ()
      | some ids =>
        match findInvalidUuid ids with
        | some bad => .error (.invalidIdentifier bad)
        | none => .ok ()

/-- The two query-builder instances of one run: `queryBuilder` (the base
builder, used for the mutation) and `existingRecordsBuilder` (its clone,
used for the existence snapshot). -/
inductive BuilderId where
  | base
  | cloned
deriving Repr, DecidableEq

/-- The payload of one `emitUpdateEvents` call. -/
structure UpdateEventPayload where
  existingRecords : List ObjectRecord
  records : List ObjectRecord
  updatedFields : List String
  authContext : String
  objectMetadataNameSingular : String
deriving Repr, DecidableEq

/-- The arguments of one `processNestedRelations` call. -/
structure NestedRelationsCall where
  parentObjectRecords : List ObjectRecord
  relations : String
  limit : Nat
  authContext : String
  roleId : Option String
  shouldBypassPermissionChecks : Bool
deriving Repr, DecidableEq

/-- One observable collaborator call of the resolver, in execution order. -/
inductive Step where
  | applyFilterToBuilder (builder : BuilderId) (targetName : String)
      (filter : Option RecordFilter)
  | getMany (builder : BuilderId)
  | executeUpdate (builder : BuilderId) (data : List (String × Value))
  | emitUpdateEvents (payload : UpdateEventPayload)
  | processNestedRelations (call : NestedRelationsCall)

/-- The storage / hydration behaviour one run executes against:
`readOutcome` is the row set `getMany` returns (`none` when the read round
trip throws), `updateOutcome` is the row set the update statement returns via
`returning` (`none` when the statement throws), and `hydrateOk` says whether
`processNestedRelations` completes. -/
structure Env where
  readOutcome : Option (List RawRow)
  updateOutcome : Option (List RawRow)
  hydrateOk : Bool

/-- The failures the whole operation can surface. -/
inductive RunError where
  | validation (e : ValidationError)
  | readFailed
  | recordNotFound
  | mutationFailed
  | hydrationFailed
deriving Repr, DecidableEq

/-- One edge of a record connection. -/
structure ConnectionEdge where
  node : ObjectRecord
deriving Repr, DecidableEq

/-- A paginated connection envelope wrapping records for transport. -/
structure RecordConnection where
  edges : List ConnectionEdge
  totalCount : Nat
  takeCount : Nat
deriving Repr, DecidableEq

/-- Modelled from the spec: `ObjectRecordsToGraphqlConnectionHelper.processRecord`
wraps one record into a single-item paginated envelope (node plus edge
metadata) carrying the given per-record `take` and `totalCount`. -/
def processRecord (record : ObjectRecord) (objectName : String)
    (takeCount : Nat) (totalCount : Nat) : RecordConnection :=
  { edges := [{ node := record }], totalCount := totalCount
    takeCount := takeCount }

/-- The `resolve` method, embedded as a trace-producing function: clone the
base builder, apply the filter to the clone under the singular name, read the
existing records, fail with `RECORD_NOT_FOUND` when the formatted snapshot is
empty, apply the same filter to the base builder under the computed table
name, execute the update with the formatted payload, emit the update event
(snapshot, updated records, the keys of the original unformatted payload),
optionally hydrate nested relations, and wrap each updated record into a
single-item connection. -/
def resolve (meta : ObjectMetadataItemWithFieldMaps) (ea : ExecutionArgs)
    (env : Env) : List Step × Except RunError (List RecordConnection) :=
  let fltr := ea.args.filter
  let readStep : Step := .applyFilterToBuilder .cloned meta.nameSingular fltr
  match env.readOutcome with
  | none => ([readStep, .getMany .cloned], .error .readFailed)
  | some rows =>
    let formattedExistingRecords := formatResult rows meta
    if formattedExistingRecords.isEmpty then
      ([readStep, .getMany .cloned], .error .recordNotFound)
    else
      let tableName := computeTableName meta.nameSingular meta.isCustom
      let writeStep : Step := .applyFilterToBuilder .base tableName fltr
      let data := formatData ea.args.data meta
      match env.updateOutcome with
      | none =>
        ([readStep, .getMany .cloned, writeStep, .executeUpdate .base data],
          .error .mutationFailed)
      | some uraw =>
        let formattedUpdatedRecords := formatResult uraw meta
        let payload : UpdateEventPayload :=
          { existingRecords := formattedExistingRecords
            records := formattedUpdatedRecords
            updatedFields := ea.args.data.map Prod.fst
            authContext := ea.authContext
            objectMetadataNameSingular := meta.nameSingular }
        let pre : List Step :=
          [readStep, .getMany .cloned, writeStep, .executeUpdate .base data,
            .emitUpdateEvents payload]
        let output := formattedUpdatedRecords.map fun r =>
          processRecord r meta.nameSingular 1 1
        match ea.selectedRelations with
        | none => (pre, .ok output)
        | some rel =>
          let call : NestedRelationsCall :=
            { parentObjectRecords :=
                formattedExistingRecords ++ formattedUpdatedRecords
              relations := rel
              limit := QUERY_MAX_RECORDS
              authContext := ea.authContext
              roleId := ea.roleId
              shouldBypassPermissionChecks := ea.isExecutedByApiKey }
          if env.hydrateOk then
            (pre ++ [.processNestedRelations call], .ok output)
          else
            (pre ++ [.processNestedRelations call], .error .hydrationFailed)

/-- Modelled from the spec: the surrounding base resolver runs the `validate`
phase first and only then `resolve`; a validation failure surfaces before any
collaborator call. -/
def executeUpdateMany (meta : ObjectMetadataItemWithFieldMaps)
    (ea : ExecutionArgs) (env : Env) :
    List Step × Except RunError (List RecordConnection) :=
  match validate ea.args meta with
  | .error e => ([], .error (.validation e))
  | .ok () => resolve meta ea env

/-- The `applyFilterToBuilder` calls of a trace, in order, as
(builder, target name, filter) triples. -/
def appliedFilterCalls (t : List Step) :
    List (BuilderId × String × Option RecordFilter) :=
  t.filterMap fun s =>
    match s with
    | .applyFilterToBuilder b n f => some (b, n, f)
    | _ => none

/-- The payloads of the `emitUpdateEvents` calls of a trace, in order. -/
def emittedPayloads (t : List Step) : List UpdateEventPayload :=
  t.filterMap fun s =>
    match s with
    | .emitUpdateEvents p => some p
    | _ => none

/-- The arguments of the `processNestedRelations` calls of a trace, in order. -/
def hydrateCalls (t : List Step) : List NestedRelationsCall :=
  t.filterMap fun s =>
    match s with
    | .processNestedRelations c => some c
    | _ => none

/-- The number of read queries (`getMany` calls) of a trace. -/
def readCount (t : List Step) : Nat :=
  (t.filterMap fun s =>
    match s with
    | .getMany b => some b
    | _ => none).length

/-- The number of update statements issued by a trace. -/
def updateStatementCount (t : List Step) : Nat :=
  (t.filterMap fun s =>
    match s with
    | .executeUpdate b d => some (b, d)
    | _ => none).length

/-- C1: in every run, the filter translation `applyFilterToBuilder` is
invoked with the same filter (the caller's `args.filter`) for the
existence-snapshot read and for the mutation write; the read call runs on the
cloned builder and targets the object type's singular name, the write call
runs on the base builder and targets the computed storage table name, and no
other filter-translation calls happen. -/
theorem applyFilter_same_filter_both_calls
    (m : ObjectMetadataItemWithFieldMaps) (ea : ExecutionArgs) (env : Env) :
    appliedFilterCalls (executeUpdateMany m ea env).1 = [] ∨
    appliedFilterCalls (executeUpdateMany m ea env).1 =
      [(.cloned, m.nameSingular, ea.args.filter)] ∨
    appliedFilterCalls (executeUpdateMany m ea env).1 =
      [(.cloned, m.nameSingular, ea.args.filter),
        (.base, computeTableName m.nameSingular m.isCustom,
          ea.args.filter)] := by
  obtain ⟨ro, uo, hok⟩ := env
  cases hv : validate ea.args m with
  | error e =>
    left
    simp [executeUpdateMany, hv, appliedFilterCalls]
  | ok u =>
    cases u
    cases ro with
    | none =>
      right; left
      simp [executeUpdateMany, hv, resolve, appliedFilterCalls]
    | some rows =>
      by_cases he : (formatResult rows m).isEmpty = true
      · right; left
        simp [executeUpdateMany, hv, resolve, he, appliedFilterCalls]
      · rw [Bool.not_eq_true] at he
        cases uo with
        | none =>
          right; right
          simp [executeUpdateMany, hv, resolve, he, appliedFilterCalls]
        | some uraw =>
          cases hrel : ea.selectedRelations with
          | none =>
            right; right
            simp [executeUpdateMany, hv, resolve, he, hrel,
              appliedFilterCalls]
          | some rel =>
            cases hok <;>
              (right; right;
                simp [executeUpdateMany, hv, resolve, he, hrel,
                  appliedFilterCalls])

/-- C2: when the filter matches zero stored records (the snapshot read
returns the empty row set), the run fails with `RECORD_NOT_FOUND` after
exactly one read query, and no update statement is ever issued. -/
theorem zero_match_fails_record_not_found
    (m : ObjectMetadataItemWithFieldMaps) (ea : ExecutionArgs) (env : Env)
    (hv : validate ea.args m = .ok ())
    (hr : env.readOutcome = some []) :
    executeUpdateMany m ea env =
      ([.applyFilterToBuilder .cloned m.nameSingular ea.args.filter,
        .getMany .cloned], .error .recordNotFound) ∧
    readCount (executeUpdateMany m ea env).1 = 1 ∧
    updateStatementCount (executeUpdateMany m ea env).1 = 0 := by
  have hrun : executeUpdateMany m ea env =
      ([.applyFilterToBuilder .cloned m.nameSingular ea.args.filter,
        .getMany .cloned], .error .recordNotFound) := by
    simp [executeUpdateMany, hv, resolve, hr, formatResult]
  refine ⟨hrun, ?_, ?_⟩ <;>
    simp [hrun, readCount, updateStatementCount]

/-- C3: a call that supplies no filter (on a writable object type) fails in
the validation phase with the `Error` whose message is "Filter is required",
and the trace is empty: no read and no write query executes. -/
theorem missing_filter_fails_before_storage
    (m : ObjectMetadataItemWithFieldMaps) (ea : ExecutionArgs) (env : Env)
    (hremote : m.isRemote = false)
    (hf : ea.args.filter = none) :
    executeUpdateMany m ea env =
      ([], .error (.validation (.missingFilter "Filter is required"))) := by
  simp [executeUpdateMany, validate, hremote, hf]

/-- A concrete writable object-type descriptor used by the witness runs. -/
def metaW : ObjectMetadataItemWithFieldMaps :=
  { nameSingular := "person", isCustom := false, isRemote := false
    fieldToColumn := [("id", "id"), ("status", "status"), ("name", "name")]
    columnToField := [("id", "id"), ("status", "status"), ("name", "name")] }

/-- A concrete filter with one syntactically valid identifier in `id.in`. -/
def filterW : RecordFilter :=
  .node (some { inValues := some ["11111111-2222-3333-4444-555555555555"]
                eqValue := none }) [] [] []

/-- Concrete execution arguments: the valid filter and a one-field payload. -/
def eaW : ExecutionArgs :=
  { args := { filter := some filterW, data := [("status", "done")] }
    authContext := "auth-ctx", selectedRelations := none
    isExecutedByApiKey := false, roleId := none }

/-- An environment whose snapshot read returns the empty row set. -/
def envEmptyRead : Env :=
  { readOutcome := some [], updateOutcome := some [], hydrateOk := true }

/-- Witness for C2: a concrete valid call whose filter matches zero records
fails with `RECORD_NOT_FOUND` after one read and issues no update. -/
theorem zero_match_fails_record_not_found_witness :
    validate eaW.args metaW = .ok () ∧
    envEmptyRead.readOutcome = some [] ∧
    (executeUpdateMany metaW eaW envEmptyRead =
      ([.applyFilterToBuilder .cloned metaW.nameSingular eaW.args.filter,
        .getMany .cloned], .error .recordNotFound) ∧
    readCount (executeUpdateMany metaW eaW envEmptyRead).1 = 1 ∧
    updateStatementCount (executeUpdateMany metaW eaW envEmptyRead).1 = 0) :=
  ⟨rfl, rfl,
    zero_match_fails_record_not_found metaW eaW envEmptyRead rfl rfl⟩

/-- Concrete execution arguments that supply no filter. -/
def eaNoFilter : ExecutionArgs :=
  { args := { filter := none, data := [("status", "done")] }
    authContext := "auth-ctx", selectedRelations := none
    isExecutedByApiKey := false, roleId := none }

/-- Witness for C3: a concrete call without a filter fails with the
"Filter is required" error and an empty trace. -/
theorem missing_filter_fails_before_storage_witness :
    metaW.isRemote = false ∧
    eaNoFilter.args.filter = none ∧
    executeUpdateMany metaW eaNoFilter envEmptyRead =
      ([], .error (.validation (.missingFilter "Filter is required"))) :=
  ⟨rfl, rfl,
    missing_filter_fails_before_storage metaW eaNoFilter envEmptyRead rfl rfl⟩

/-- C4: with a filter present on a writable object type, every value of the
top-level `id.in` clause is checked for syntactic identifier validity: if
some value is invalid, the run fails with `InvalidIdentifier` at the first
such value and the trace is empty (no query executes); if all values are
valid, identifier validation succeeds. -/
theorem id_in_values_uuid_checked
    (m : ObjectMetadataItemWithFieldMaps) (ea : ExecutionArgs) (env : Env)
    (f : RecordFilter) (ids : List String)
    (hremote : m.isRemote = false)
    (hf : ea.args.filter = some f)
    (hids : f.idInValues = some ids) :
    (∀ bad, findInvalidUuid ids = some bad →
      executeUpdateMany m ea env =
        ([], .error (.validation (.invalidIdentifier bad)))) ∧
    (findInvalidUuid ids = none → validate ea.args m = .ok ()) := by
  constructor
  · intro bad hbad
    simp [executeUpdateMany, validate, hremote, hf, hids, hbad]
  · intro hnone
    simp [validate, hremote, hf, hids, hnone]

/-- A concrete filter whose `id.in` holds a syntactically invalid id. -/
def filterBadId : RecordFilter :=
  .node (some { inValues := some ["not-a-uuid"], eqValue := none }) [] [] []

/-- Concrete execution arguments carrying the invalid-id filter. -/
def eaBadId : ExecutionArgs :=
  { args := { filter := some filterBadId, data := [("status", "done")] }
    authContext := "auth-ctx", selectedRelations := none
    isExecutedByApiKey := false, roleId := none }

/-- Witness for C4: the identifier value "not-a-uuid" makes the concrete run
fail with `InvalidIdentifier` before any query executes. -/
theorem id_in_values_uuid_checked_witness :
    metaW.isRemote = false ∧
    eaBadId.args.filter = some filterBadId ∧
    filterBadId.idInValues = some ["not-a-uuid"] ∧
    findInvalidUuid ["not-a-uuid"] = some "not-a-uuid" ∧
    executeUpdateMany metaW eaBadId envEmptyRead =
      ([], .error (.validation (.invalidIdentifier "not-a-uuid"))) :=
  ⟨rfl, rfl, rfl, rfl,
    (id_in_values_uuid_checked metaW eaBadId envEmptyRead filterBadId
      ["not-a-uuid"] rfl rfl rfl).1 "not-a-uuid" rfl⟩

/-- C10: identifier validation reaches only the top-level `id.in` clause.
Two filters with the same top-level `id.in` values validate identically
whatever their other contents (nested conjunction and disjunction nodes,
`id.eq`, clauses of other fields, the update payload), and a filter without
a top-level `id.in` clause passes identifier validation unconditionally on a
writable object type. -/
theorem identifier_check_only_top_level_id_in
    (m : ObjectMetadataItemWithFieldMaps) (d1 d2 : List (String × Value))
    (f g : RecordFilter)
    (hfg : f.idInValues = g.idInValues) :
    validate ⟨some f, d1⟩ m = validate ⟨some g, d2⟩ m ∧
    (m.isRemote = false → f.idInValues = none →
      validate ⟨some f, d1⟩ m = .ok ()) := by
  constructor
  · simp only [validate, hfg]
  · intro hremote hnone
    simp [validate, hremote, hnone]

/-- A concrete filter with invalid identifiers everywhere except the
top-level `id.in` clause (which is absent): under `id.eq`, nested below
`and` and `or` nodes, and in an id-valued clause of another field. -/
def filterNestedBadIds : RecordFilter :=
  .node (some { inValues := none, eqValue := some "not-a-uuid" })
    [.node (some { inValues := some ["bad-id-under-and"], eqValue := none })
      [] [] []]
    [.node (some { inValues := some ["bad-id-under-or"], eqValue := none })
      [] [] []]
    [("companyId", { inValues := some ["bad-id-other-field"]
                     eqValue := none })]

/-- A trivial empty filter. -/
def filterTrivial : RecordFilter := .node none [] [] []

/-- Witness for C10: the filter whose invalid identifiers sit only in nested
or non-`id.in` positions passes validation on the concrete descriptor. -/
theorem identifier_check_only_top_level_id_in_witness :
    filterNestedBadIds.idInValues = filterTrivial.idInValues ∧
    metaW.isRemote = false ∧
    filterNestedBadIds.idInValues = none ∧
    validate ⟨some filterNestedBadIds, []⟩ metaW = .ok () :=
  ⟨rfl, rfl, rfl,
    (identifier_check_only_top_level_id_in metaW [] []
      filterNestedBadIds filterTrivial rfl).2 rfl rfl⟩

/-- C5: the `updatedFields` list of every emitted change event equals the
field names (keys) of the original unformatted caller payload `args.data` --
not the set of columns whose values actually changed. -/
theorem updated_fields_equal_payload_keys
    (m : ObjectMetadataItemWithFieldMaps) (ea : ExecutionArgs) (env : Env)
    (p : UpdateEventPayload)
    (hp : p ∈ emittedPayloads (executeUpdateMany m ea env).1) :
    p.updatedFields = ea.args.data.map Prod.fst := by
  obtain ⟨ro, uo, hok⟩ := env
  cases hv : validate ea.args m with
  | error e => simp [executeUpdateMany, hv, emittedPayloads] at hp
  | ok u =>
    cases u
    cases ro with
    | none => simp [executeUpdateMany, hv, resolve, emittedPayloads] at hp
    | some rows =>
      by_cases hem : (formatResult rows m).isEmpty = true
      · simp [executeUpdateMany, hv, resolve, hem, emittedPayloads] at hp
      · rw [Bool.not_eq_true] at hem
        cases uo with
        | none =>
          simp [executeUpdateMany, hv, resolve, hem, emittedPayloads] at hp
        | some uraw =>
          cases hrel : ea.selectedRelations with
          | none =>
            simp [executeUpdateMany, hv, resolve, hem, hrel,
              emittedPayloads] at hp
            simp [hp]
          | some rel =>
            cases hok <;>
              (simp [executeUpdateMany, hv, resolve, hem, hrel,
                emittedPayloads] at hp;
                simp [hp])

/-- An environment with one matching row whose `status` already holds the
value the payload writes (so no stored value actually changes). -/
def envOneRow : Env :=
  { readOutcome := some [[("id", "row-1"), ("status", "done")]]
    updateOutcome := some [[("id", "row-1"), ("status", "done")]]
    hydrateOk := true }

/-- The change-event payload the `envOneRow` run emits. -/
def payloadW : UpdateEventPayload :=
  { existingRecords := [[("id", "row-1"), ("status", "done")]]
    records := [[("id", "row-1"), ("status", "done")]]
    updatedFields := ["status"]
    authContext := "auth-ctx"
    objectMetadataNameSingular := "person" }

/-- Witness for C5: in a concrete run where the written value equals the
stored one (nothing actually changes), `updatedFields` still lists the
payload key `status`. -/
theorem updated_fields_equal_payload_keys_witness :
    payloadW ∈ emittedPayloads (executeUpdateMany metaW eaW envOneRow).1 ∧
    payloadW.updatedFields = eaW.args.data.map Prod.fst := by
  have hp : payloadW ∈
      emittedPayloads (executeUpdateMany metaW eaW envOneRow).1 := by
    decide
  exact ⟨hp, updated_fields_equal_payload_keys metaW eaW envOneRow payloadW hp⟩

/-- C7: the change-event emitter runs exactly once per successful mutation --
after the update statement and before any relation hydration -- and never
runs when the call fails at the validation, existence-snapshot, read or
mutation stage. -/
theorem emitter_once_on_success_only
    (m : ObjectMetadataItemWithFieldMaps) (ea : ExecutionArgs) (env : Env) :
    (∀ e, (executeUpdateMany m ea env).2 = .error e →
      e ≠ RunError.hydrationFailed →
      emittedPayloads (executeUpdateMany m ea env).1 = []) ∧
    (∀ out, (executeUpdateMany m ea env).2 = .ok out →
      ∃ p, emittedPayloads (executeUpdateMany m ea env).1 = [p] ∧
        ((ea.selectedRelations = none ∧
          (executeUpdateMany m ea env).1 =
            [.applyFilterToBuilder .cloned m.nameSingular ea.args.filter,
              .getMany .cloned,
              .applyFilterToBuilder .base
                (computeTableName m.nameSingular m.isCustom) ea.args.filter,
              .executeUpdate .base (formatData ea.args.data m),
              .emitUpdateEvents p]) ∨
          (∃ c, (executeUpdateMany m ea env).1 =
            [.applyFilterToBuilder .cloned m.nameSingular ea.args.filter,
              .getMany .cloned,
              .applyFilterToBuilder .base
                (computeTableName m.nameSingular m.isCustom) ea.args.filter,
              .executeUpdate .base (formatData ea.args.data m),
              .emitUpdateEvents p,
              .processNestedRelations c]))) := by
  obtain ⟨ro, uo, hok⟩ := env
  cases hv : validate ea.args m with
  | error e =>
    constructor
    · intro e2 he hne
      simp [executeUpdateMany, hv, emittedPayloads]
    · intro out hout
      simp [executeUpdateMany, hv] at hout
  | ok u =>
    cases u
    cases ro with
    | none =>
      constructor
      · intro e2 he hne
        simp [executeUpdateMany, hv, resolve, emittedPayloads]
      · intro out hout
        simp [executeUpdateMany, hv, resolve] at hout
    | some rows =>
      by_cases hem : (formatResult rows m).isEmpty = true
      · constructor
        · intro e2 he hne
          simp [executeUpdateMany, hv, resolve, hem, emittedPayloads]
        · intro out hout
          simp [executeUpdateMany, hv, resolve, hem] at hout
      · rw [Bool.not_eq_true] at hem
        cases uo with
        | none =>
          constructor
          · intro e2 he hne
            simp [executeUpdateMany, hv, resolve, hem, emittedPayloads]
          · intro out hout
            simp [executeUpdateMany, hv, resolve, hem] at hout
        | some uraw =>
          cases hrel : ea.selectedRelations with
          | none =>
            constructor
            · intro e2 he hne
              simp [executeUpdateMany, hv, resolve, hem, hrel] at he
            · intro out hout
              refine ⟨{ existingRecords := formatResult rows m
                        records := formatResult uraw m
                        updatedFields := ea.args.data.map Prod.fst
                        authContext := ea.authContext
                        objectMetadataNameSingular := m.nameSingular },
                ?_, Or.inl ⟨rfl, ?_⟩⟩ <;>
                simp [executeUpdateMany, hv, resolve, hem, hrel,
                  emittedPayloads]
          | some rel =>
            cases hok with
            | false =>
              constructor
              · intro e2 he hne
                simp [executeUpdateMany, hv, resolve, hem, hrel] at he
                exact absurd he.symm hne
              · intro out hout
                simp [executeUpdateMany, hv, resolve, hem, hrel] at hout
            | true =>
              constructor
              · intro e2 he hne
                simp [executeUpdateMany, hv, resolve, hem, hrel] at he
              · intro out hout
                refine ⟨{ existingRecords := formatResult rows m
                          records := formatResult uraw m
                          updatedFields := ea.args.data.map Prod.fst
                          authContext := ea.authContext
                          objectMetadataNameSingular := m.nameSingular },
                  ?_, Or.inr
                    ⟨{ parentObjectRecords :=
                        formatResult rows m ++ formatResult uraw m
                       relations := rel
                       limit := QUERY_MAX_RECORDS
                       authContext := ea.authContext
                       roleId := ea.roleId
                       shouldBypassPermissionChecks :=
                        ea.isExecutedByApiKey }, ?_⟩⟩ <;>
                  simp [executeUpdateMany, hv, resolve, hem, hrel,
                    emittedPayloads]

/-- The connection-shaped output of the `envOneRow` run. -/
def outW : List RecordConnection :=
  [{ edges := [{ node := [("id", "row-1"), ("status", "done")] }]
     totalCount := 1, takeCount := 1 }]

/-- Witness for C7: in a concrete failing run (empty match set) no event is
emitted, and in a concrete successful run exactly one event is emitted, after
the update statement and before hydration. -/
theorem emitter_once_on_success_only_witness :
    emittedPayloads (executeUpdateMany metaW eaW envEmptyRead).1 = [] ∧
    (∃ p, emittedPayloads (executeUpdateMany metaW eaW envOneRow).1 = [p] ∧
      ((eaW.selectedRelations = none ∧
        (executeUpdateMany metaW eaW envOneRow).1 =
          [.applyFilterToBuilder .cloned metaW.nameSingular
              eaW.args.filter,
            .getMany .cloned,
            .applyFilterToBuilder .base
              (computeTableName metaW.nameSingular metaW.isCustom)
              eaW.args.filter,
            .executeUpdate .base (formatData eaW.args.data metaW),
            .emitUpdateEvents p]) ∨
        (∃ c, (executeUpdateMany metaW eaW envOneRow).1 =
          [.applyFilterToBuilder .cloned metaW.nameSingular
              eaW.args.filter,
            .getMany .cloned,
            .applyFilterToBuilder .base
              (computeTableName metaW.nameSingular metaW.isCustom)
              eaW.args.filter,
            .executeUpdate .base (formatData eaW.args.data metaW),
            .emitUpdateEvents p,
            .processNestedRelations c]))) :=
  ⟨(emitter_once_on_success_only metaW eaW envEmptyRead).1
      .recordNotFound rfl (by decide),
    (emitter_once_on_success_only metaW eaW envOneRow).2 outW rfl⟩

/-- C8: the nested-relation hydrator runs only when the caller selected
related entities, and on a successful run it runs exactly when they were
selected; every hydrator call receives the concatenation of the existing and
updated record lists, the query-maximum record cap, the authenticated
context, the role id, and a permission-bypass flag equal to the API-key
flag. -/
theorem hydrator_iff_relations_requested
    (m : ObjectMetadataItemWithFieldMaps) (ea : ExecutionArgs) (env : Env) :
    (∀ c, c ∈ hydrateCalls (executeUpdateMany m ea env).1 →
      ea.selectedRelations = some c.relations ∧
      c.parentObjectRecords =
        formatResult (env.readOutcome.getD []) m ++
          formatResult (env.updateOutcome.getD []) m ∧
      c.limit = QUERY_MAX_RECORDS ∧
      c.authContext = ea.authContext ∧
      c.roleId = ea.roleId ∧
      c.shouldBypassPermissionChecks = ea.isExecutedByApiKey) ∧
    (∀ out, (executeUpdateMany m ea env).2 = .ok out →
      (hydrateCalls (executeUpdateMany m ea env).1 = [] ↔
        ea.selectedRelations = none)) := by
  obtain ⟨ro, uo, hok⟩ := env
  cases hv : validate ea.args m with
  | error e =>
    constructor
    · intro c hc
      simp [executeUpdateMany, hv, hydrateCalls] at hc
    · intro out hout
      simp [executeUpdateMany, hv] at hout
  | ok u =>
    cases u
    cases ro with
    | none =>
      constructor
      · intro c hc
        simp [executeUpdateMany, hv, resolve, hydrateCalls] at hc
      · intro out hout
        simp [executeUpdateMany, hv, resolve] at hout
    | some rows =>
      by_cases hem : (formatResult rows m).isEmpty = true
      · constructor
        · intro c hc
          simp [executeUpdateMany, hv, resolve, hem, hydrateCalls] at hc
        · intro out hout
          simp [executeUpdateMany, hv, resolve, hem] at hout
      · rw [Bool.not_eq_true] at hem
        cases uo with
        | none =>
          constructor
          · intro c hc
            simp [executeUpdateMany, hv, resolve, hem, hydrateCalls] at hc
          · intro out hout
            simp [executeUpdateMany, hv, resolve, hem] at hout
        | some uraw =>
          cases hrel : ea.selectedRelations with
          | none =>
            constructor
            · intro c hc
              simp [executeUpdateMany, hv, resolve, hem, hrel,
                hydrateCalls] at hc
            · intro out hout
              simp [executeUpdateMany, hv, resolve, hem, hrel, hrel,
                hydrateCalls]
          | some rel =>
            cases hok with
            | false =>
              constructor
              · intro c hc
                simp [executeUpdateMany, hv, resolve, hem, hrel,
                  hydrateCalls] at hc
                simp [hc, hrel]
              · intro out hout
                simp [executeUpdateMany, hv, resolve, hem, hrel] at hout
            | true =>
              constructor
              · intro c hc
                simp [executeUpdateMany, hv, resolve, hem, hrel,
                  hydrateCalls] at hc
                simp [hc, hrel]
              · intro out hout
                simp [executeUpdateMany, hv, resolve, hem, hrel,
                  hydrateCalls]

/-- Concrete execution arguments that select a relation and are executed by
an API key. -/
def eaRel : ExecutionArgs :=
  { eaW with selectedRelations := some "company", isExecutedByApiKey := true }

/-- The hydrator call of the `eaRel` / `envOneRow` run. -/
def hydrateCallW : NestedRelationsCall :=
  { parentObjectRecords :=
      [[("id", "row-1"), ("status", "done")],
        [("id", "row-1"), ("status", "done")]]
    relations := "company"
    limit := QUERY_MAX_RECORDS
    authContext := "auth-ctx"
    roleId := none
    shouldBypassPermissionChecks := true }

/-- Witness for C8: the concrete run that selects a relation and is executed
by an API key hands the hydrator the concatenated before and after records,
the query-maximum cap and a set bypass flag. -/
theorem hydrator_iff_relations_requested_witness :
    hydrateCallW ∈ hydrateCalls (executeUpdateMany metaW eaRel envOneRow).1 ∧
    (eaRel.selectedRelations = some hydrateCallW.relations ∧
      hydrateCallW.parentObjectRecords =
        formatResult (envOneRow.readOutcome.getD []) metaW ++
          formatResult (envOneRow.updateOutcome.getD []) metaW ∧
      hydrateCallW.limit = QUERY_MAX_RECORDS ∧
      hydrateCallW.authContext = eaRel.authContext ∧
      hydrateCallW.roleId = eaRel.roleId ∧
      hydrateCallW.shouldBypassPermissionChecks =
        eaRel.isExecutedByApiKey) := by
  have hc : hydrateCallW ∈
      hydrateCalls (executeUpdateMany metaW eaRel envOneRow).1 := by
    decide
  exact ⟨hc,
    (hydrator_iff_relations_requested metaW eaRel envOneRow).1
      hydrateCallW hc⟩

/-- C9: the output of a successful run is the sequence of updated records in
the storage layer's returned row order, each wrapped by `processRecord` into
a single-item connection envelope with `take` 1 and `totalCount` 1. -/
theorem output_connection_per_updated_row
    (m : ObjectMetadataItemWithFieldMaps) (ea : ExecutionArgs) (env : Env)
    (out : List RecordConnection)
    (hout : (executeUpdateMany m ea env).2 = .ok out) :
    ∃ uraw, env.updateOutcome = some uraw ∧
      out = (formatResult uraw m).map
        (fun r => processRecord r m.nameSingular 1 1) ∧
      out = (formatResult uraw m).map
        (fun r => { edges := [{ node := r }], totalCount := 1
                    takeCount := 1 }) := by
  obtain ⟨ro, uo, hok⟩ := env
  cases hv : validate ea.args m with
  | error e => simp [executeUpdateMany, hv] at hout
  | ok u =>
    cases u
    cases ro with
    | none => simp [executeUpdateMany, hv, resolve] at hout
    | some rows =>
      by_cases hem : (formatResult rows m).isEmpty = true
      · simp [executeUpdateMany, hv, resolve, hem] at hout
      · rw [Bool.not_eq_true] at hem
        cases uo with
        | none => simp [executeUpdateMany, hv, resolve, hem] at hout
        | some uraw =>
          cases hrel : ea.selectedRelations with
          | none =>
            refine ⟨uraw, rfl, ?_, ?_⟩ <;>
              (simp [executeUpdateMany, hv, resolve, hem, hrel] at hout;
                simp [← hout, processRecord])
          | some rel =>
            cases hok with
            | false =>
              simp [executeUpdateMany, hv, resolve, hem, hrel] at hout
            | true =>
              refine ⟨uraw, rfl, ?_, ?_⟩ <;>
                (simp [executeUpdateMany, hv, resolve, hem, hrel] at hout;
                  simp [← hout, processRecord])

/-- Witness for C9: the concrete successful run returns one single-item
connection envelope per updated row with `take` 1 and `totalCount` 1. -/
theorem output_connection_per_updated_row_witness :
    (executeUpdateMany metaW eaW envOneRow).2 = .ok outW ∧
    (∃ uraw, envOneRow.updateOutcome = some uraw ∧
      outW = (formatResult uraw metaW).map
        (fun r => processRecord r metaW.nameSingular 1 1) ∧
      outW = (formatResult uraw metaW).map
        (fun r => { edges := [{ node := r }], totalCount := 1
                    takeCount := 1 })) :=
  ⟨rfl, output_connection_per_updated_row metaW eaW envOneRow outW rfl⟩

/-!
## Deep copy at the emission boundary

The pure trace model above cannot distinguish a deep copy from an alias, so
the emission boundary (the `structuredClone` calls handed to
`emitUpdateEvents`, followed by the in-place relation hydration of the
working record arrays) is modelled once more with explicit addresses:
records live in a heap, the working arrays and the emitted event hold
addresses, `structuredClone` allocates fresh cells, and later in-place
mutation overwrites cells of pre-existing addresses.
-/

/-- A heap of records; an address is an index into `cells`. -/
structure RecHeap where
  cells : List ObjectRecord

/-- Reads the record at an address (the empty record when out of range). -/
def RecHeap.deref (h : RecHeap) (a : Nat) : ObjectRecord :=
  h.cells.getD a []

/-- Allocates a fresh cell holding `r`: the new heap and the fresh address. -/
def RecHeap.alloc (h : RecHeap) (r : ObjectRecord) : RecHeap × Nat :=
  (⟨h.cells ++ [r]⟩, h.cells.length)

/-- Overwrites the cell at an address (in-place mutation of one record). -/
def RecHeap.setCell (h : RecHeap) (a : Nat) (r : ObjectRecord) : RecHeap :=
  ⟨h.cells.set a r⟩

/-- `structuredClone` of an array of records: allocates a fresh copy of each
record in order and returns the fresh addresses. -/
def cloneRecords (h : RecHeap) (addrs : List Nat) : RecHeap × List Nat :=
  match addrs with
  | [] => (h, [])
  | a :: rest =>
    let p := h.alloc (h.deref a)
    let q := cloneRecords p.1 rest
    (q.1, p.2 :: q.2)

/-- The event payload handed to the emitter: the addresses of the cloned
record arrays together with the `updatedFields` list. -/
structure EmittedEvent where
  existingAddrs : List Nat
  recordAddrs : List Nat
  updatedFields : List String
deriving Repr, DecidableEq

/-- The emission boundary of `resolve`: `emitUpdateEvents` receives
`structuredClone`d copies of the working `existingRecords` and updated
records arrays, taken at emission time. -/
def emitSnapshot (h : RecHeap) (existingAddrs updatedAddrs : List Nat)
    (dataKeys : List String) : RecHeap × EmittedEvent :=
  let p := cloneRecords h existingAddrs
  let q := cloneRecords p.1 updatedAddrs
  (q.1, ⟨p.2, q.2, dataKeys⟩)

/-- In-place mutation of the cells at the `touched` addresses, one after the
other (relation hydration attaches relation data onto the records it was
given, in place; `f` is the arbitrary per-record rewrite). -/
def mutateCells (h : RecHeap) (touched : List Nat)
    (f : Nat → ObjectRecord → ObjectRecord) : RecHeap :=
  touched.foldl (fun acc a => acc.setCell a (f a (acc.deref a))) h

theorem deref_alloc_of_lt (h : RecHeap) (r : ObjectRecord) (a : Nat)
    (ha : a < h.cells.length) : (h.alloc r).1.deref a = h.deref a := by
  simp only [RecHeap.alloc, RecHeap.deref]
  exact List.getD_append h.cells [r] [] a ha

theorem deref_alloc_fresh (h : RecHeap) (r : ObjectRecord) :
    (h.alloc r).1.deref (h.alloc r).2 = r := by
  simp [RecHeap.alloc, RecHeap.deref, List.getD]

theorem alloc_cells_length (h : RecHeap) (r : ObjectRecord) :
    (h.alloc r).1.cells.length = h.cells.length + 1 := by
  simp [RecHeap.alloc]

theorem cloneRecords_fst_cons (h : RecHeap) (a : Nat) (rest : List Nat) :
    (cloneRecords h (a :: rest)).1 =
      (cloneRecords (h.alloc (h.deref a)).1 rest).1 := rfl

theorem cloneRecords_snd_cons (h : RecHeap) (a : Nat) (rest : List Nat) :
    (cloneRecords h (a :: rest)).2 =
      (h.alloc (h.deref a)).2 ::
        (cloneRecords (h.alloc (h.deref a)).1 rest).2 := rfl

theorem cloneRecords_cells_prefix (addrs : List Nat) (h : RecHeap) :
    ∃ tail, (cloneRecords h addrs).1.cells = h.cells ++ tail := by
  induction addrs generalizing h with
  | nil => exact ⟨[], by simp [cloneRecords]⟩
  | cons a rest ih =>
    obtain ⟨tail, htail⟩ := ih (h.alloc (h.deref a)).1
    refine ⟨h.deref a :: tail, ?_⟩
    rw [cloneRecords_fst_cons, htail]
    simp [RecHeap.alloc]

theorem deref_cloneRecords_of_lt (addrs : List Nat) (h : RecHeap) (a : Nat)
    (ha : a < h.cells.length) :
    (cloneRecords h addrs).1.deref a = h.deref a := by
  obtain ⟨tail, htail⟩ := cloneRecords_cells_prefix addrs h
  simp only [RecHeap.deref, htail]
  exact List.getD_append h.cells tail [] a ha

theorem cloneRecords_cells_length (addrs : List Nat) (h : RecHeap) :
    (cloneRecords h addrs).1.cells.length =
      h.cells.length + addrs.length := by
  induction addrs generalizing h with
  | nil => simp [cloneRecords]
  | cons a rest ih =>
    rw [cloneRecords_fst_cons, ih, alloc_cells_length, List.length_cons]
    omega

theorem cloneRecords_addr_bounds (addrs : List Nat) (h : RecHeap) :
    ∀ a2 ∈ (cloneRecords h addrs).2,
      h.cells.length ≤ a2 ∧ a2 < (cloneRecords h addrs).1.cells.length := by
  induction addrs generalizing h with
  | nil => simp [cloneRecords]
  | cons a rest ih =>
    intro a2 ha2
    rw [cloneRecords_snd_cons, List.mem_cons] at ha2
    rw [cloneRecords_fst_cons]
    rcases ha2 with h1 | h2
    · subst h1
      constructor
      · show h.cells.length ≤ h.cells.length
        omega
      · rw [cloneRecords_cells_length, alloc_cells_length]
        show h.cells.length < h.cells.length + 1 + rest.length
        omega
    · have hres := ih (h.alloc (h.deref a)).1 a2 h2
      have hl := alloc_cells_length h (h.deref a)
      exact ⟨by omega, hres.2⟩

theorem cloneRecords_values (addrs : List Nat) (h : RecHeap)
    (hb : ∀ a ∈ addrs, a < h.cells.length) :
    (cloneRecords h addrs).2.map (cloneRecords h addrs).1.deref =
      addrs.map h.deref := by
  induction addrs generalizing h with
  | nil => simp [cloneRecords]
  | cons a rest ih =>
    have hrest : ∀ x ∈ rest, x < (h.alloc (h.deref a)).1.cells.length := by
      intro x hx
      have hx2 := hb x (List.mem_cons_of_mem a hx)
      rw [alloc_cells_length]
      omega
    have ihv := ih (h.alloc (h.deref a)).1 hrest
    rw [cloneRecords_fst_cons, cloneRecords_snd_cons, List.map_cons,
      List.map_cons]
    refine List.cons_eq_cons.mpr ⟨?_, ?_⟩
    · -- the head clone still holds the record the address held at clone time
      have hfresh : (h.alloc (h.deref a)).2 <
          (h.alloc (h.deref a)).1.cells.length := by
        rw [alloc_cells_length]
        show h.cells.length < h.cells.length + 1
        omega
      rw [deref_cloneRecords_of_lt rest _ _ hfresh]
      exact deref_alloc_fresh h (h.deref a)
    · -- the remaining clones hold the records their addresses held
      rw [ihv]
      refine List.map_congr_left ?_
      intro x hx
      exact deref_alloc_of_lt h (h.deref a) x (hb x (List.mem_cons_of_mem a hx))

theorem deref_setCell_ne (h : RecHeap) (a b : Nat) (r : ObjectRecord)
    (hne : a ≠ b) : (h.setCell a r).deref b = h.deref b := by
  simp [RecHeap.setCell, RecHeap.deref, List.getD, List.getElem?_set_ne hne]

theorem mutateCells_deref_high (touched : List Nat) (h : RecHeap)
    (f : Nat → ObjectRecord → ObjectRecord) (a N : Nat)
    (htb : ∀ t ∈ touched, t < N) (ha : N ≤ a) :
    (mutateCells h touched f).deref a = h.deref a := by
  induction touched generalizing h with
  | nil => simp [mutateCells]
  | cons t rest ih =>
    have htn : t < N := htb t (List.mem_cons_self t rest)
    have hne : t ≠ a := by omega
    simp only [mutateCells, List.foldl_cons]
    rw [show List.foldl (fun acc x => acc.setCell x (f x (acc.deref x)))
        (h.setCell t (f t (h.deref t))) rest =
      mutateCells (h.setCell t (f t (h.deref t))) rest f from rfl]
    rw [ih (h.setCell t (f t (h.deref t)))
      (fun x hx => htb x (List.mem_cons_of_mem t hx))]
    exact deref_setCell_ne _ t a _ hne

/-- C6: the record arrays handed to the event emitter are deep copies taken
at emission time: after any later in-place mutation of the pre-existing
records (including in-place relation hydration of the working arrays), the
event payload still dereferences to exactly the records as they were when
the event was emitted. -/
theorem emitted_event_immune_to_later_mutation
    (h : RecHeap) (existingAddrs updatedAddrs touched : List Nat)
    (dataKeys : List String) (f : Nat → ObjectRecord → ObjectRecord)
    (hex : ∀ a ∈ existingAddrs, a < h.cells.length)
    (hup : ∀ a ∈ updatedAddrs, a < h.cells.length)
    (ht : ∀ a ∈ touched, a < h.cells.length) :
    (mutateCells (emitSnapshot h existingAddrs updatedAddrs dataKeys).1
        touched f).deref <$>
      (emitSnapshot h existingAddrs updatedAddrs dataKeys).2.existingAddrs =
        existingAddrs.map h.deref ∧
    (mutateCells (emitSnapshot h existingAddrs updatedAddrs dataKeys).1
        touched f).deref <$>
      (emitSnapshot h existingAddrs updatedAddrs dataKeys).2.recordAddrs =
        updatedAddrs.map h.deref := by
  simp only [List.map_eq_map, emitSnapshot]
  have hlen1 : h.cells.length ≤
      (cloneRecords h existingAddrs).1.cells.length := by
    rw [cloneRecords_cells_length]
    omega
  constructor
  · -- the existing-records half of the payload
    have step1 : List.map
        (mutateCells
          (cloneRecords (cloneRecords h existingAddrs).1 updatedAddrs).1
          touched f).deref (cloneRecords h existingAddrs).2 =
        List.map
          (cloneRecords (cloneRecords h existingAddrs).1 updatedAddrs).1.deref
          (cloneRecords h existingAddrs).2 := by
      refine List.map_congr_left ?_
      intro a haa
      have hb := cloneRecords_addr_bounds existingAddrs h a haa
      exact mutateCells_deref_high touched _ f a h.cells.length ht hb.1
    have step2 : List.map
        (cloneRecords (cloneRecords h existingAddrs).1 updatedAddrs).1.deref
        (cloneRecords h existingAddrs).2 =
        List.map (cloneRecords h existingAddrs).1.deref
          (cloneRecords h existingAddrs).2 := by
      refine List.map_congr_left ?_
      intro a haa
      have hb := cloneRecords_addr_bounds existingAddrs h a haa
      exact deref_cloneRecords_of_lt updatedAddrs _ a hb.2
    rw [step1, step2, cloneRecords_values existingAddrs h hex]
  · -- the updated-records half of the payload
    have step1 : List.map
        (mutateCells
          (cloneRecords (cloneRecords h existingAddrs).1 updatedAddrs).1
          touched f).deref
        (cloneRecords (cloneRecords h existingAddrs).1 updatedAddrs).2 =
        List.map
          (cloneRecords (cloneRecords h existingAddrs).1 updatedAddrs).1.deref
          (cloneRecords (cloneRecords h existingAddrs).1 updatedAddrs).2 := by
      refine List.map_congr_left ?_
      intro a haa
      have hb := cloneRecords_addr_bounds updatedAddrs
        (cloneRecords h existingAddrs).1 a haa
      exact mutateCells_deref_high touched _ f a h.cells.length ht
        (le_trans hlen1 hb.1)
    have hupb1 : ∀ a ∈ updatedAddrs,
        a < (cloneRecords h existingAddrs).1.cells.length := by
      intro a haa
      have ha2 := hup a haa
      omega
    have step2 := cloneRecords_values updatedAddrs
      (cloneRecords h existingAddrs).1 hupb1
    have step3 : List.map (cloneRecords h existingAddrs).1.deref
        updatedAddrs = List.map h.deref updatedAddrs := by
      refine List.map_congr_left ?_
      intro a haa
      exact deref_cloneRecords_of_lt existingAddrs h a (hup a haa)
    rw [step1, step2, step3]

/-- Witness for C6: a concrete two-record heap whose working arrays are
mutated in place after emission; the emitted payload still dereferences to
the records as of emission time. -/
theorem emitted_event_immune_to_later_mutation_witness :
    (∀ a ∈ [0], a < (RecHeap.mk
      [[("id", "r1"), ("status", "open")],
        [("id", "r1"), ("status", "done")]]).cells.length) ∧
    (mutateCells (emitSnapshot
        (RecHeap.mk [[("id", "r1"), ("status", "open")],
          [("id", "r1"), ("status", "done")]]) [0] [1] ["status"]).1
        [0, 1] (fun _ r => ("company", "hydrated") :: r)).deref <$>
      (emitSnapshot (RecHeap.mk [[("id", "r1"), ("status", "open")],
          [("id", "r1"), ("status", "done")]]) [0] [1]
          ["status"]).2.existingAddrs =
      [0].map (RecHeap.mk [[("id", "r1"), ("status", "open")],
        [("id", "r1"), ("status", "done")]]).deref ∧
    (mutateCells (emitSnapshot
        (RecHeap.mk [[("id", "r1"), ("status", "open")],
          [("id", "r1"), ("status", "done")]]) [0] [1] ["status"]).1
        [0, 1] (fun _ r => ("company", "hydrated") :: r)).deref <$>
      (emitSnapshot (RecHeap.mk [[("id", "r1"), ("status", "open")],
          [("id", "r1"), ("status", "done")]]) [0] [1]
          ["status"]).2.recordAddrs =
      [1].map (RecHeap.mk [[("id", "r1"), ("status", "open")],
        [("id", "r1"), ("status", "done")]]).deref :=
  ⟨by decide,
    emitted_event_immune_to_later_mutation
      (RecHeap.mk [[("id", "r1"), ("status", "open")],
        [("id", "r1"), ("status", "done")]]) [0] [1] [0, 1] ["status"]
      (fun _ r => ("company", "hydrated") :: r)
      (by decide) (by decide) (by decide)⟩

end UpdateMany
